import Mathlib

/-!
Verification of the rray ray tracer (src/rray.rs).

The pipeline in src/rray.rs is embedded shallowly: Rust floats become real
numbers, the tuple types `Pixel`, `Colour`, `SceneParams`, `Intersection`
become products, and the vector/geometry/scene collaborators (the lmath,
geometry and scene modules, which are not part of the core source) are
modelled from the spec.  The per-primitive intersection routine `intersect`
and the `EPSILON` threshold live in the external scene module, so they are
threaded through the embedding as parameters.
-/

namespace Rray

noncomputable section

/-- Modelled from the spec: the external vector collaborator's 3-vector
("3D vector arithmetic: add, subtract, scale, dot, cross, normalize");
float components are modelled as real numbers. -/
structure Vec3 where
  x : ℝ
  y : ℝ
  z : ℝ

/-- Modelled from the spec: componentwise vector addition (`add_v`). -/
def Vec3.add_v (a b : Vec3) : Vec3 := ⟨a.x + b.x, a.y + b.y, a.z + b.z⟩

/-- Modelled from the spec: componentwise vector subtraction (`sub_v`). -/
def Vec3.sub_v (a b : Vec3) : Vec3 := ⟨a.x - b.x, a.y - b.y, a.z - b.z⟩

/-- Modelled from the spec: scaling a vector by a scalar (`mul_t`). -/
def Vec3.mul_t (a : Vec3) (t : ℝ) : Vec3 := ⟨a.x * t, a.y * t, a.z * t⟩

/-- Modelled from the spec: dot product. -/
def Vec3.dot (a b : Vec3) : ℝ := a.x * b.x + a.y * b.y + a.z * b.z

/-- Modelled from the spec: cross product. -/
def Vec3.cross (a b : Vec3) : Vec3 :=
  ⟨a.y * b.z - a.z * b.y, a.z * b.x - a.x * b.z, a.x * b.y - a.y * b.x⟩

/-- Modelled from the spec: Euclidean length of a vector. -/
def Vec3.length (a : Vec3) : ℝ := Real.sqrt (a.dot a)

/-- Modelled from the spec: normalization, i.e. scaling by the reciprocal
length (degenerate zero-length input propagates as division by zero, which
in the real-number model yields the zero vector). -/
def Vec3.normalize (a : Vec3) : Vec3 := a.mul_t (1 / a.length)

/-- Modelled from the spec: a material carries a diffuse colour, a specular
colour and a shininess exponent. -/
structure Material where
  diffuse : Vec3
  specular : Vec3
  shininess : ℝ

/-- Modelled from the spec: a primitive is a scene shape carrying a
material (field `mat`); its geometry is only ever consulted through the
external `intersect` routine, which stays abstract. -/
structure Primitive where
  mat : Material

/-- Modelled from the spec: a light has a position and an emission colour. -/
structure Light where
  pos : Vec3
  colour : Vec3

/-- Modelled from the spec: the read-only scene record consumed by the
renderer. -/
structure Scene where
  width : ℕ
  height : ℕ
  fov : ℝ
  camera : Vec3
  view : Vec3
  up : Vec3
  ambient : Vec3
  primitives : List Primitive
  lights : List Light

/-- `type Pixel = (int, int)` from src/rray.rs. -/
abbrev Pixel := ℤ × ℤ

/-- `type Colour = (u8, u8, u8)` from src/rray.rs; each 8-bit channel is
modelled as an integer (the range facts are proved, not built in). -/
abbrev Colour := ℤ × ℤ × ℤ

/-- `type SceneParams = (float, float, Vec3, Vec3)` from src/rray.rs:
aspect ratio, projection distance, horizontal basis vector, top pixel. -/
abbrev SceneParams := ℝ × ℝ × Vec3 × Vec3

/-- Modelled from the spec: the intersection record returned by the external
`intersect` routine — distance along the ray, surface normal direction and
the hit primitive. -/
abbrev Intersection := ℝ × Vec3 × Primitive

/-- Modelled from the spec: the float `clamp` method used on colour
channels: below the lower bound it returns the lower bound, above the upper
bound the upper bound, otherwise the value itself. -/
def fclamp (v mn mx : ℝ) : ℝ := if v < mn then mn else if v > mx then mx else v

/-- `deg2rad` from src/rray.rs. -/
def deg2rad (d : ℝ) : ℝ := d * Real.pi / 180

/-- `makePixels` from src/rray.rs: builds the pixel grid by a right fold
over the row indices, appending each row after the rows built so far. -/
def makePixels (w h : ℕ) : List (List Pixel) :=
  let xs : List ℤ := (List.range w).map (fun n : ℕ => (n : ℤ))
  let ys : List ℤ := (List.range h).map (fun n : ℕ => (n : ℤ))
  ys.foldr (fun y result => result ++ [xs.map (fun x => (x, y))]) []

/-- `setupScene` from src/rray.rs. -/
def setupScene (s : Scene) : SceneParams :=
  let aspect := (s.width : ℝ) / (s.height : ℝ)
  let viewLen := (s.height : ℝ) / Real.tan (deg2rad s.fov)
  let horVec := (s.view.cross s.up).normalize
  let centerPixel := s.camera.add_v (s.view.mul_t viewLen)
  let topPixel := (centerPixel.add_v (horVec.mul_t ((s.width : ℝ) / (-2)))).add_v
                    (s.up.mul_t ((s.height : ℝ) / (-2)))
  (aspect, viewLen, horVec, topPixel)

/-- `intersectNodes` from src/rray.rs: a right fold over the primitives
that keeps the accumulated intersection unless the newly tested primitive
hits strictly closer. -/
def intersectNodes (intersect : Primitive → Vec3 → Vec3 → Option Intersection)
    (ps : List Primitive) (ray origin : Vec3) : Option Intersection :=
  ps.foldr (fun x y =>
    match intersect x ray origin with
    | some newIntersection =>
      match y with
      | some oldIntersection =>
        if oldIntersection.1 > newIntersection.1 then some newIntersection
        else some oldIntersection
      | none => some newIntersection
    | none => y) none

/-- The multiset of hits: the intersections of exactly those primitives
whose `intersect` routine reports a hit for the given ray.  Used to state
the nearest-hit properties. -/
def hitsOf (intersect : Primitive → Vec3 → Vec3 → Option Intersection)
    (ps : List Primitive) (ray origin : Vec3) : List Intersection :=
  ps.filterMap (fun p => intersect p ray origin)

/-- `vecMult` from src/rray.rs: componentwise product. -/
def vecMult (a b : Vec3) : Vec3 := ⟨a.x * b.x, a.y * b.y, a.z * b.z⟩

/-- The per-light closure inside `trace` in src/rray.rs: given the
normalized surface normal, the normalized incoming ray direction, the
material and the hit point, it produces the (diffuse, specular) colour pair
contributed by one (unoccluded) light.  The external `float::pow` on
floats is modelled as real exponentiation `Real.rpow`. -/
def shadePointLight (EPSILON : ℝ) (normal normalizedRay : Vec3) (mat : Material)
    (intersection : Vec3) (light : Light) : Vec3 × Vec3 :=
  let shadowRay := light.pos.sub_v intersection
  let normalizedShadowRay := shadowRay.normalize
  let diffuseCoef := normal.dot normalizedShadowRay
  let reflectedShadowRay := normalizedShadowRay.sub_v (normal.mul_t (2 * diffuseCoef))
  let specCoef := |Real.rpow (reflectedShadowRay.dot normalizedRay) mat.shininess|
  let diffuseColours :=
    if diffuseCoef > EPSILON then vecMult (mat.diffuse.mul_t diffuseCoef) light.colour
    else ⟨0, 0, 0⟩
  let specularColours :=
    if specCoef > EPSILON then vecMult (mat.specular.mul_t specCoef) light.colour
    else ⟨0, 0, 0⟩
  (diffuseColours, specularColours)

/-- The `Some` branch of `trace` in src/rray.rs up to (and excluding) the
final scaling/clamping: shadow filtering of the lights, per-light shading,
summation of the diffuse and specular contributions, and the ambient term. -/
def shadeHit (EPSILON : ℝ) (intersect : Primitive → Vec3 → Vec3 → Option Intersection)
    (ps : List Primitive) (amb ray origin : Vec3) (lights : List Light)
    (iRayLen : ℝ) (iRay : Vec3) (iP : Primitive) : Vec3 :=
  let intersection := origin.add_v (ray.mul_t iRayLen)
  let normal := iRay.normalize
  let normalizedRay := ray.normalize
  let mat := iP.mat
  let lightIntersections :=
    (lights.map (fun light =>
      (light, intersectNodes intersect ps (light.pos.sub_v intersection) intersection))).filter
      (fun r => r.2.isNone)
  let shadedColours := lightIntersections.map (fun li =>
    shadePointLight EPSILON normal normalizedRay mat intersection li.1)
  let diffuse := shadedColours.foldr (fun colour r => colour.1.add_v r) ⟨0, 0, 0⟩
  let specular := shadedColours.foldr (fun colour r => colour.2.add_v r) ⟨0, 0, 0⟩
  diffuse.add_v (specular.add_v (vecMult amb mat.diffuse))

/-- `trace` from src/rray.rs: resolve the nearest hit; on a miss return the
literal background colour (26, 26, 26), otherwise shade the hit and scale,
clamp and truncate each channel (the `as u8` cast of a float already
clamped into [0, 255] is truncation, i.e. the floor). -/
def trace (EPSILON : ℝ) (intersect : Primitive → Vec3 → Vec3 → Option Intersection)
    (ps : List Primitive) (amb ray origin : Vec3) (lights : List Light) : Colour :=
  match intersectNodes intersect ps ray origin with
  | some (iRayLen, iRay, iP) =>
    let colours := shadeHit EPSILON intersect ps amb ray origin lights iRayLen iRay iP
    (⌊fclamp (colours.x * 255) 0 255⌋, ⌊fclamp (colours.y * 255) 0 255⌋,
     ⌊fclamp (colours.z * 255) 0 255⌋)
  | none => (26, 26, 26)

/-- `doTrace` from src/rray.rs: map a pixel to a world-space ray and shade
it. -/
def doTrace (EPSILON : ℝ) (intersect : Primitive → Vec3 → Vec3 → Option Intersection)
    (s : Scene) (params : SceneParams) (posn : Pixel) : Colour :=
  let (aspect, _viewLen, horVec, topPixel) := params
  let (x, y) := posn
  let currentPixel := (topPixel.add_v (horVec.mul_t (aspect * (x : ℝ)))).add_v
                        (s.up.mul_t (y : ℝ))
  let ray := currentPixel.sub_v s.camera
  trace EPSILON intersect s.primitives s.ambient ray s.camera s.lights

/-- `render` from src/rray.rs: set up the view once, then shade every pixel
of the grid. -/
def render (EPSILON : ℝ) (intersect : Primitive → Vec3 → Vec3 → Option Intersection)
    (s : Scene) : List (List Colour) :=
  let params := setupScene s
  (makePixels s.width s.height).map (fun column =>
    column.map (fun pix => doTrace EPSILON intersect s params pix))

/-- The pixel-grid portion of `main` in src/rray.rs: row `y` of the printed
output reads `r[y][x]` for `x` from `0` to `width - 1`, where `r` is the
buffer returned by `render`. -/
def mainRows (EPSILON : ℝ) (intersect : Primitive → Vec3 → Vec3 → Option Intersection)
    (s : Scene) : List (List Colour) :=
  let r := render EPSILON intersect s
  (List.range s.height).map (fun y =>
    (List.range s.width).map (fun x => (r.getD y []).getD x (0, 0, 0)))

/-- Modelled from the spec (claim-side definition for the specular
property): the perfect mirror reflection of a direction `d` about the
normal `n`, namely `d - n * (2 * (d ⋅ n))`. -/
def mirrorReflect (d n : Vec3) : Vec3 := d.sub_v (n.mul_t (2 * (d.dot n)))

/-- Concrete material used by the witness scenes. -/
def mat0 : Material := ⟨⟨1, 1, 1⟩, ⟨0, 0, 0⟩, 1⟩

/-- Concrete primitive used by the witness scenes. -/
def p0 : Primitive := ⟨mat0⟩

/-- Concrete epsilon threshold used by the witness scenes. -/
def eps0 : ℝ := 1 / 1000

/-- Concrete primitive whose shininess field encodes the hit distance that
`intersectS` reports for it. -/
def pD (d : ℝ) : Primitive := ⟨⟨⟨1, 1, 1⟩, ⟨0, 0, 0⟩, d⟩⟩

/-- Concrete intersection routine reporting, for every primitive, a hit at
the distance stored in its shininess field. -/
def intersectS : Primitive → Vec3 → Vec3 → Option Intersection :=
  fun p _ _ => some (p.mat.shininess, ⟨0, 0, 0⟩, p)

/-- Concrete intersection routine that hits exactly the rays of zero
y-component. -/
def intersect0 : Primitive → Vec3 → Vec3 → Option Intersection :=
  fun p ray _ => if ray.y = 0 then some (1, ⟨0, 0, 1⟩, p) else none

/-- Concrete intersection routine that reports a hit for every ray. -/
def intersect1 : Primitive → Vec3 → Vec3 → Option Intersection :=
  fun p _ _ => some (1, ⟨0, 0, 1⟩, p)

/-- Concrete intersection routine that never reports a hit. -/
def intersectN : Primitive → Vec3 → Vec3 → Option Intersection :=
  fun _ _ _ => none

/-- Concrete 1-by-2 scene: one primitive, no lights, the camera at the
origin looking along the z axis. -/
def sC3 : Scene :=
  ⟨1, 2, 45, ⟨0, 0, 0⟩, ⟨0, 0, 1⟩, ⟨0, 1, 0⟩, ⟨1, 1, 1⟩, [p0], []⟩

/-- Concrete 1-by-1 scene with a 45-degree field of view. -/
def sC2 : Scene :=
  ⟨1, 1, 45, ⟨0, 0, 0⟩, ⟨0, 0, 1⟩, ⟨0, 1, 0⟩, ⟨1, 1, 1⟩, [p0], []⟩

/-- Concrete light used by the shadow witness. -/
def L0 : Light := ⟨⟨0, 0, 5⟩, ⟨1, 1, 1⟩⟩

/-- Concrete zero vector used by the witnesses. -/
def v0 : Vec3 := ⟨0, 0, 0⟩

/-- Concrete primitive distinct from `pD 2` that `intersectS` also hits at
distance 2 (its specular colour differs). -/
def pE : Primitive := ⟨⟨⟨1, 1, 1⟩, ⟨1, 0, 0⟩, 2⟩⟩

end

/-! Properties of the nearest-hit resolver `intersectNodes`. -/

theorem intersectNodes_nil (intersect : Primitive → Vec3 → Vec3 → Option Intersection)
    (ray origin : Vec3) : intersectNodes intersect [] ray origin = none := rfl

theorem intersectNodes_cons (intersect : Primitive → Vec3 → Vec3 → Option Intersection)
    (p : Primitive) (ps : List Primitive) (ray origin : Vec3) :
    intersectNodes intersect (p :: ps) ray origin =
      match intersect p ray origin with
      | some n =>
        match intersectNodes intersect ps ray origin with
        | some o => if o.1 > n.1 then some n else some o
        | none => some n
      | none => intersectNodes intersect ps ray origin := rfl

theorem intersectNodes_cons_none (intersect : Primitive → Vec3 → Vec3 → Option Intersection)
    {p : Primitive} (ps : List Primitive) {ray origin : Vec3}
    (hp : intersect p ray origin = none) :
    intersectNodes intersect (p :: ps) ray origin = intersectNodes intersect ps ray origin := by
  rw [intersectNodes_cons, hp]

theorem intersectNodes_cons_some_none (intersect : Primitive → Vec3 → Vec3 → Option Intersection)
    {p : Primitive} {ps : List Primitive} {ray origin : Vec3} {n : Intersection}
    (hp : intersect p ray origin = some n)
    (hrec : intersectNodes intersect ps ray origin = none) :
    intersectNodes intersect (p :: ps) ray origin = some n := by
  rw [intersectNodes_cons, hp, hrec]

theorem intersectNodes_cons_some_some (intersect : Primitive → Vec3 → Vec3 → Option Intersection)
    {p : Primitive} {ps : List Primitive} {ray origin : Vec3} {n o : Intersection}
    (hp : intersect p ray origin = some n)
    (hrec : intersectNodes intersect ps ray origin = some o) :
    intersectNodes intersect (p :: ps) ray origin =
      if o.1 > n.1 then some n else some o := by
  rw [intersectNodes_cons, hp, hrec]

theorem mem_hitsOf_cons {intersect : Primitive → Vec3 → Vec3 → Option Intersection}
    {ps : List Primitive} {ray origin : Vec3} {b : Intersection} (p : Primitive)
    (hb : b ∈ hitsOf intersect ps ray origin) : b ∈ hitsOf intersect (p :: ps) ray origin := by
  simp only [hitsOf, List.filterMap_cons] at *
  split
  · exact hb
  · exact List.mem_cons_of_mem _ hb

theorem intersectNodes_eq_none_iff (intersect : Primitive → Vec3 → Vec3 → Option Intersection)
    (ps : List Primitive) (ray origin : Vec3) :
    intersectNodes intersect ps ray origin = none ↔
      ∀ p ∈ ps, intersect p ray origin = none := by
  induction ps with
  | nil => simp [intersectNodes]
  | cons p ps ih =>
    cases h : intersect p ray origin with
    | none => simp [intersectNodes_cons_none intersect ps h, ih, h]
    | some n =>
      cases h2 : intersectNodes intersect ps ray origin with
      | none => simp [intersectNodes_cons_some_none intersect h h2, h]
      | some o =>
        rw [intersectNodes_cons_some_some intersect h h2]
        by_cases h3 : o.1 > n.1 <;> simp [h3, h]

theorem intersectNodes_mem_min (intersect : Primitive → Vec3 → Vec3 → Option Intersection)
    (ps : List Primitive) (ray origin : Vec3) :
    ∀ i : Intersection, intersectNodes intersect ps ray origin = some i →
      i ∈ hitsOf intersect ps ray origin ∧
        ∀ b ∈ hitsOf intersect ps ray origin, i.1 ≤ b.1 := by
  induction ps with
  | nil => intro i h; simp [intersectNodes] at h
  | cons p ps ih =>
    intro i h
    cases hp : intersect p ray origin with
    | none =>
      rw [intersectNodes_cons_none intersect ps hp] at h
      obtain ⟨h1, h2⟩ := ih i h
      refine ⟨mem_hitsOf_cons p h1, ?_⟩
      intro b hb
      simp only [hitsOf, List.filterMap_cons, hp] at hb
      exact h2 b hb
    | some n =>
      cases h2 : intersectNodes intersect ps ray origin with
      | none =>
        rw [intersectNodes_cons_some_none intersect hp h2] at h
        have hi : i = n := by simpa using h.symm
        subst hi
        have hnil : hitsOf intersect ps ray origin = [] := by
          simp only [hitsOf, List.filterMap_eq_nil_iff]
          exact (intersectNodes_eq_none_iff intersect ps ray origin).mp h2
        have hlist : hitsOf intersect (p :: ps) ray origin = [i] := by
          simp only [hitsOf, List.filterMap_cons, hp]
          simp only [hitsOf] at hnil
          rw [hnil]
        rw [hlist]
        simp
      | some o =>
        rw [intersectNodes_cons_some_some intersect hp h2] at h
        obtain ⟨ho1, ho2⟩ := ih o h2
        by_cases h3 : o.1 > n.1
        · rw [if_pos h3] at h
          have hi : i = n := by simpa using h.symm
          subst hi
          constructor
          · simp [hitsOf, List.filterMap_cons, hp]
          · intro b hb
            simp only [hitsOf, List.filterMap_cons, hp, List.mem_cons] at hb
            rcases hb with rfl | hb
            · exact le_refl _
            · exact le_of_lt (lt_of_lt_of_le h3 (ho2 b hb))
        · rw [if_neg h3] at h
          have hi : i = o := by simpa using h.symm
          subst hi
          refine ⟨mem_hitsOf_cons p ho1, ?_⟩
          intro b hb
          simp only [hitsOf, List.filterMap_cons, hp, List.mem_cons] at hb
          rcases hb with rfl | hb
          · exact not_lt.mp h3
          · exact ho2 b hb

/-- Claim C1: for every primitive sequence and every ray, the nearest-hit
resolver returns none exactly when no primitive reports a hit; when it
returns an intersection, that intersection is one of the reported hits and
its distance is smallest among all reported hits; and for pairwise
distinct hit distances the selected intersection does not depend on the
order of the primitives in the sequence. -/
theorem intersectNodes_nearest_hit
    (intersect : Primitive → Vec3 → Vec3 → Option Intersection)
    (ps : List Primitive) (ray origin : Vec3) :
    (intersectNodes intersect ps ray origin = none ↔
      ∀ p ∈ ps, intersect p ray origin = none) ∧
    (∀ i : Intersection, intersectNodes intersect ps ray origin = some i →
      i ∈ hitsOf intersect ps ray origin ∧
        ∀ b ∈ hitsOf intersect ps ray origin, i.1 ≤ b.1) ∧
    (∀ ps2 : List Primitive, List.Perm ps ps2 →
      List.Pairwise (fun a b : Intersection => a.1 ≠ b.1)
        (hitsOf intersect ps ray origin) →
      intersectNodes intersect ps ray origin = intersectNodes intersect ps2 ray origin) := by
  refine ⟨intersectNodes_eq_none_iff intersect ps ray origin,
    intersectNodes_mem_min intersect ps ray origin, ?_⟩
  intro ps2 hperm hpw
  have hphits : List.Perm (hitsOf intersect ps ray origin) (hitsOf intersect ps2 ray origin) :=
    hperm.filterMap _
  cases e1 : intersectNodes intersect ps ray origin with
  | none =>
    have hall := (intersectNodes_eq_none_iff intersect ps ray origin).mp e1
    exact ((intersectNodes_eq_none_iff intersect ps2 ray origin).mpr
      (fun p hp => hall p (hperm.mem_iff.mpr hp))).symm
  | some i =>
    cases e2 : intersectNodes intersect ps2 ray origin with
    | none =>
      exfalso
      have hall := (intersectNodes_eq_none_iff intersect ps2 ray origin).mp e2
      have : intersectNodes intersect ps ray origin = none :=
        (intersectNodes_eq_none_iff intersect ps ray origin).mpr
          (fun p hp => hall p (hperm.mem_iff.mp hp))
      rw [e1] at this
      exact Option.noConfusion this
    | some j =>
      obtain ⟨hi_mem, hi_min⟩ := intersectNodes_mem_min intersect ps ray origin i e1
      obtain ⟨hj_mem, hj_min⟩ := intersectNodes_mem_min intersect ps2 ray origin j e2
      have hj_mem1 : j ∈ hitsOf intersect ps ray origin := hphits.mem_iff.mpr hj_mem
      have hi_mem2 : i ∈ hitsOf intersect ps2 ray origin := hphits.mem_iff.mp hi_mem
      have heq : i.1 = j.1 := le_antisymm (hi_min j hj_mem1) (hj_min i hi_mem2)
      by_cases hij : i = j
      · rw [hij]
      · have hsymm : Symmetric (fun a b : Intersection => a.1 ≠ b.1) :=
          fun _ _ hab => hab.symm
        exact absurd heq (hpw.forall hsymm hi_mem hj_mem1 hij)

/-- Claim C10: the implicit tie-breaking rule of the right-fold resolver:
if the primitive `pj` reports a hit `i` whose distance is minimal among all
reported hits and every primitive after `pj` that hits does so at a
strictly greater distance (in particular, when several primitives tie at
the minimal distance, `pj` is the latest of them), then the resolver
returns exactly `i`, the hit of the latest minimal-distance primitive:
the fold keeps the already-accumulated intersection unless the new
distance is strictly smaller. -/
theorem intersectNodes_tie_breaks_latest
    (intersect : Primitive → Vec3 → Vec3 → Option Intersection)
    (l₁ l₂ : List Primitive) (pj : Primitive) (ray origin : Vec3) (i : Intersection)
    (h1 : intersect pj ray origin = some i)
    (h3 : ∀ b ∈ hitsOf intersect l₂ ray origin, i.1 < b.1)
    (h2 : ∀ b ∈ hitsOf intersect (l₁ ++ pj :: l₂) ray origin, i.1 ≤ b.1) :
    intersectNodes intersect (l₁ ++ pj :: l₂) ray origin = some i := by
  induction l₁ with
  | nil =>
    simp only [List.nil_append]
    cases e : intersectNodes intersect l₂ ray origin with
    | none => exact intersectNodes_cons_some_none intersect h1 e
    | some o =>
      have ho := (intersectNodes_mem_min intersect l₂ ray origin o e).1
      rw [intersectNodes_cons_some_some intersect h1 e]
      exact if_pos (h3 o ho)
  | cons p t ih =>
    have hsub : ∀ b ∈ hitsOf intersect (t ++ pj :: l₂) ray origin, i.1 ≤ b.1 := by
      intro b hb
      exact h2 b (mem_hitsOf_cons p hb)
    have hrec := ih hsub
    rw [List.cons_append]
    cases hp : intersect p ray origin with
    | none => rw [intersectNodes_cons_none intersect _ hp]; exact hrec
    | some n =>
      have hn : n ∈ hitsOf intersect ((p :: t) ++ pj :: l₂) ray origin := by
        simp [hitsOf, List.filterMap_cons, hp]
      rw [intersectNodes_cons_some_some intersect hp hrec]
      rw [if_neg (not_lt.mpr (h2 n hn))]

/-- Witness for claim C1: on the two-primitive list with hit distances 5
and 2, the resolver's result is the distance-2 hit, is minimal, and
swapping the two primitives does not change the result. -/
theorem intersectNodes_nearest_hit_witness :
    ((2 : ℝ), v0, pD 2) ∈ hitsOf intersectS [pD 5, pD 2] v0 v0 ∧
    (∀ b ∈ hitsOf intersectS [pD 5, pD 2] v0 v0, ((2 : ℝ), v0, pD 2).1 ≤ b.1) ∧
    intersectNodes intersectS [pD 5, pD 2] v0 v0 =
      intersectNodes intersectS [pD 2, pD 5] v0 v0 := by
  have ha : intersectS (pD 5) v0 v0 = some (5, v0, pD 5) := rfl
  have hb : intersectS (pD 2) v0 v0 = some (2, v0, pD 2) := rfl
  have hone : intersectNodes intersectS [pD 2] v0 v0 = some (2, v0, pD 2) :=
    intersectNodes_cons_some_none intersectS hb rfl
  have e1 : intersectNodes intersectS [pD 5, pD 2] v0 v0 = some (2, v0, pD 2) := by
    rw [intersectNodes_cons_some_some intersectS ha hone]
    norm_num
  have T := intersectNodes_nearest_hit intersectS [pD 5, pD 2] v0 v0
  have hmin := T.2.1 ((2 : ℝ), v0, pD 2) e1
  refine ⟨hmin.1, hmin.2, ?_⟩
  refine T.2.2 [pD 2, pD 5] (List.Perm.swap (pD 2) (pD 5) []) ?_
  have hh : hitsOf intersectS [pD 5, pD 2] v0 v0 = [(5, v0, pD 5), (2, v0, pD 2)] := rfl
  rw [hh]
  refine List.Pairwise.cons ?_ (List.Pairwise.cons (by simp) List.Pairwise.nil)
  intro b hb2
  rw [List.mem_singleton] at hb2
  subst hb2
  norm_num

/-- Witness for claim C10: on the list `[pE, pD 2, pD 3]`, where `pE` and
`pD 2` both hit at the minimal distance 2 and `pD 3` hits at distance 3,
the resolver returns the hit of `pD 2`, the latest primitive at the
minimal distance, not the hit of the earlier tied `pE`. -/
theorem intersectNodes_tie_breaks_latest_witness :
    intersectNodes intersectS ([pE] ++ pD 2 :: [pD 3]) v0 v0 = some (2, v0, pD 2) := by
  apply intersectNodes_tie_breaks_latest intersectS [pE] [pD 3] (pD 2) v0 v0 (2, v0, pD 2) rfl
  · intro b hb
    simp only [hitsOf, intersectS, pD, List.filterMap_cons, List.filterMap_nil,
      List.mem_cons, List.not_mem_nil, or_false] at hb
    subst hb
    norm_num
  · intro b hb
    simp only [hitsOf, intersectS, pD, pE, List.filterMap_cons, List.filterMap_nil,
      List.cons_append, List.nil_append, List.mem_cons, List.not_mem_nil, or_false] at hb
    rcases hb with rfl | rfl | rfl <;> norm_num

/-- Claim C2 (amended): the view setup computes the projection distance as
the scene height divided by the tangent of the full field-of-view
converted to radians (the source applies `tan` to `deg2rad(fov)`, not to
half of it). -/
theorem setupScene_viewLen_full_fov (s : Scene) :
    (setupScene s).2.1 = (s.height : ℝ) / Real.tan (deg2rad s.fov) := rfl

/-- Counterexample to claim C2 as stated: for the concrete scene `sC2`
(height 1, field of view 45 degrees) the projection distance computed by
the view setup is 1, which differs from height divided by the tangent of
half the field-of-view in radians, since `tan (pi/8) < 1`. -/
theorem setupScene_viewLen_ne_half_fov :
    (setupScene sC2).2.1 ≠ (sC2.height : ℝ) / Real.tan (deg2rad (sC2.fov / 2)) := by
  have hpi := Real.pi_pos
  have h45 : deg2rad (45 : ℝ) = Real.pi / 4 := by unfold deg2rad; ring
  have h225 : deg2rad ((45 : ℝ) / 2) = Real.pi / 8 := by unfold deg2rad; ring
  have hL : (setupScene sC2).2.1 = 1 := by
    show ((1 : ℕ) : ℝ) / Real.tan (deg2rad (45 : ℝ)) = 1
    rw [h45, Real.tan_pi_div_four]
    norm_num
  have ht_pos : 0 < Real.tan (Real.pi / 8) :=
    Real.tan_pos_of_pos_of_lt_pi_div_two (by linarith) (by linarith)
  have ht_lt : Real.tan (Real.pi / 8) < 1 := by
    have h := Real.strictMonoOn_tan
      (Set.mem_Ioo.mpr ⟨by linarith, by linarith⟩)
      (Set.mem_Ioo.mpr ⟨by linarith, by linarith⟩)
      (show Real.pi / 8 < Real.pi / 4 by linarith)
    rwa [Real.tan_pi_div_four] at h
  have hR : (sC2.height : ℝ) / Real.tan (deg2rad (sC2.fov / 2)) = 1 / Real.tan (Real.pi / 8) := by
    show ((1 : ℕ) : ℝ) / Real.tan (deg2rad ((45 : ℝ) / 2)) = _
    rw [h225]
    norm_num
  rw [hL, hR]
  exact ne_of_lt (one_lt_one_div ht_pos ht_lt)

/-! Properties of the shader `trace`. -/

theorem trace_of_none {EPSILON : ℝ} {intersect : Primitive → Vec3 → Vec3 → Option Intersection}
    {ps : List Primitive} (amb : Vec3) {ray origin : Vec3} (lights : List Light)
    (h : intersectNodes intersect ps ray origin = none) :
    trace EPSILON intersect ps amb ray origin lights = (26, 26, 26) := by
  unfold trace
  rw [h]

theorem trace_of_some {EPSILON : ℝ} {intersect : Primitive → Vec3 → Vec3 → Option Intersection}
    {ps : List Primitive} (amb : Vec3) {ray origin : Vec3} (lights : List Light)
    {d : ℝ} {nrm : Vec3} {p : Primitive}
    (h : intersectNodes intersect ps ray origin = some (d, nrm, p)) :
    trace EPSILON intersect ps amb ray origin lights =
      (⌊fclamp ((shadeHit EPSILON intersect ps amb ray origin lights d nrm p).x * 255) 0 255⌋,
       ⌊fclamp ((shadeHit EPSILON intersect ps amb ray origin lights d nrm p).y * 255) 0 255⌋,
       ⌊fclamp ((shadeHit EPSILON intersect ps amb ray origin lights d nrm p).z * 255) 0 255⌋) := by
  unfold trace
  rw [h]

theorem floor_fclamp_bounds (v : ℝ) : 0 ≤ ⌊fclamp v 0 255⌋ ∧ ⌊fclamp v 0 255⌋ ≤ 255 := by
  unfold fclamp
  split
  · norm_num
  · split
    · norm_num
    · next h1 h2 =>
      constructor
      · exact Int.le_floor.mpr (by push_cast; linarith)
      · have hle : ⌊v⌋ ≤ ⌊(255 : ℝ)⌋ := Int.floor_le_floor (by linarith)
        simpa using hle

/-- Claim C5: whenever the nearest-hit resolver reports no intersection for
the primary ray, the shader returns exactly the colour (26, 26, 26),
independently of the primitive list, the ambient colour and the lights
(which are all universally quantified here). -/
theorem trace_miss_is_background (EPSILON : ℝ)
    (intersect : Primitive → Vec3 → Vec3 → Option Intersection)
    (ps : List Primitive) (amb ray origin : Vec3) (lights : List Light)
    (h : intersectNodes intersect ps ray origin = none) :
    trace EPSILON intersect ps amb ray origin lights = (26, 26, 26) :=
  trace_of_none amb lights h

/-- Witness for claim C5: on the empty primitive list the resolver misses
and the shader returns the background colour. -/
theorem trace_miss_is_background_witness :
    trace eps0 intersectN [] v0 v0 v0 [] = (26, 26, 26) :=
  trace_miss_is_background eps0 intersectN [] v0 v0 v0 [] rfl

/-- Claim C6: every output channel of the shader is an integer in [0, 255],
and in the hit case each channel is obtained from the summed colour by
scaling by 255, clamping to [0, 255] and truncating to an integer. -/
theorem trace_channels_in_range (EPSILON : ℝ)
    (intersect : Primitive → Vec3 → Vec3 → Option Intersection)
    (ps : List Primitive) (amb ray origin : Vec3) (lights : List Light) :
    (0 ≤ (trace EPSILON intersect ps amb ray origin lights).1 ∧
     (trace EPSILON intersect ps amb ray origin lights).1 ≤ 255 ∧
     0 ≤ (trace EPSILON intersect ps amb ray origin lights).2.1 ∧
     (trace EPSILON intersect ps amb ray origin lights).2.1 ≤ 255 ∧
     0 ≤ (trace EPSILON intersect ps amb ray origin lights).2.2 ∧
     (trace EPSILON intersect ps amb ray origin lights).2.2 ≤ 255) ∧
    (∀ (d : ℝ) (nrm : Vec3) (p : Primitive),
      intersectNodes intersect ps ray origin = some (d, nrm, p) →
      trace EPSILON intersect ps amb ray origin lights =
        (⌊fclamp ((shadeHit EPSILON intersect ps amb ray origin lights d nrm p).x * 255) 0 255⌋,
         ⌊fclamp ((shadeHit EPSILON intersect ps amb ray origin lights d nrm p).y * 255) 0 255⌋,
         ⌊fclamp ((shadeHit EPSILON intersect ps amb ray origin lights d nrm p).z * 255) 0 255⌋)) := by
  constructor
  · cases h : intersectNodes intersect ps ray origin with
    | none =>
      rw [trace_of_none amb lights h]
      norm_num
    | some i =>
      obtain ⟨d, nrm, p⟩ := i
      rw [trace_of_some amb lights h]
      exact ⟨(floor_fclamp_bounds _).1, (floor_fclamp_bounds _).2,
        (floor_fclamp_bounds _).1, (floor_fclamp_bounds _).2,
        (floor_fclamp_bounds _).1, (floor_fclamp_bounds _).2⟩
  · intro d nrm p h
    exact trace_of_some amb lights h

/-- Witness for claim C6: the hit-case channel formula instantiated on a
concrete one-primitive scene whose intersection routine always hits. -/
theorem trace_channels_in_range_witness :
    trace eps0 intersect1 [p0] v0 v0 v0 [] =
      (⌊fclamp ((shadeHit eps0 intersect1 [p0] v0 v0 v0 [] 1 ⟨0, 0, 1⟩ p0).x * 255) 0 255⌋,
       ⌊fclamp ((shadeHit eps0 intersect1 [p0] v0 v0 v0 [] 1 ⟨0, 0, 1⟩ p0).y * 255) 0 255⌋,
       ⌊fclamp ((shadeHit eps0 intersect1 [p0] v0 v0 v0 [] 1 ⟨0, 0, 1⟩ p0).z * 255) 0 255⌋) :=
  (trace_channels_in_range eps0 intersect1 [p0] v0 v0 v0 []).2 1 ⟨0, 0, 1⟩ p0 rfl

/-- Claim C4: occluded lights do not contribute: shading a hit against the
full light list gives the same colour as shading against only those lights
whose shadow ray (from the hit point toward the light) produces no
intersection in the resolver; the occlusion test is exactly
`intersectNodes = none` on the shadow ray, with no distance-to-light
cutoff. -/
theorem trace_drops_occluded_lights (EPSILON : ℝ)
    (intersect : Primitive → Vec3 → Vec3 → Option Intersection)
    (ps : List Primitive) (amb ray origin : Vec3) (lights : List Light)
    (d : ℝ) (nrm : Vec3) (p : Primitive)
    (h : intersectNodes intersect ps ray origin = some (d, nrm, p)) :
    trace EPSILON intersect ps amb ray origin lights =
      trace EPSILON intersect ps amb ray origin (lights.filter (fun light =>
        (intersectNodes intersect ps
          (light.pos.sub_v (origin.add_v (ray.mul_t d)))
          (origin.add_v (ray.mul_t d))).isNone)) := by
  rw [trace_of_some amb lights h, trace_of_some amb _ h]
  suffices hsh : shadeHit EPSILON intersect ps amb ray origin lights d nrm p =
      shadeHit EPSILON intersect ps amb ray origin (lights.filter (fun light =>
        (intersectNodes intersect ps
          (light.pos.sub_v (origin.add_v (ray.mul_t d)))
          (origin.add_v (ray.mul_t d))).isNone)) d nrm p by
    rw [hsh]
  simp only [shadeHit]
  rw [List.filter_map, List.filter_map, List.filter_filter]
  simp [Function.comp_def, Bool.and_self]

/-- Witness for claim C4: with an always-hitting intersection routine the
single light is occluded, and the shader's result on it equals the result
on the (empty) filtered light list. -/
theorem trace_drops_occluded_lights_witness :
    trace eps0 intersect1 [p0] v0 v0 v0 [L0] =
      trace eps0 intersect1 [p0] v0 v0 v0 ([L0].filter (fun light =>
        (intersectNodes intersect1 [p0]
          (light.pos.sub_v (v0.add_v (v0.mul_t 1)))
          (v0.add_v (v0.mul_t 1))).isNone)) :=
  trace_drops_occluded_lights eps0 intersect1 [p0] v0 v0 v0 [L0] 1 ⟨0, 0, 1⟩ p0 rfl

/-- Claim C7: for a pixel whose primary ray hits a primitive, if every
light's shadow ray is occluded (vacuously so for an empty light list), the
shader's output equals the componentwise truncated clamp to [0, 255] of
255 times the ambient colour times the material's diffuse colour. -/
theorem trace_ambient_only (EPSILON : ℝ)
    (intersect : Primitive → Vec3 → Vec3 → Option Intersection)
    (ps : List Primitive) (amb ray origin : Vec3) (lights : List Light)
    (d : ℝ) (nrm : Vec3) (p : Primitive)
    (h : intersectNodes intersect ps ray origin = some (d, nrm, p))
    (hocc : ∀ light ∈ lights,
      (intersectNodes intersect ps
        (light.pos.sub_v (origin.add_v (ray.mul_t d)))
        (origin.add_v (ray.mul_t d))).isSome = true) :
    trace EPSILON intersect ps amb ray origin lights =
      (⌊fclamp (amb.x * p.mat.diffuse.x * 255) 0 255⌋,
       ⌊fclamp (amb.y * p.mat.diffuse.y * 255) 0 255⌋,
       ⌊fclamp (amb.z * p.mat.diffuse.z * 255) 0 255⌋) := by
  rw [trace_of_some amb lights h]
  have hli : (lights.map (fun light =>
      (light, intersectNodes intersect ps
        (light.pos.sub_v (origin.add_v (ray.mul_t d)))
        (origin.add_v (ray.mul_t d))))).filter
      (fun r => r.2.isNone) = [] := by
    rw [List.filter_eq_nil_iff]
    intro a ha
    obtain ⟨light, hl, rfl⟩ := List.mem_map.mp ha
    have hs := hocc light hl
    cases ho : intersectNodes intersect ps
        (light.pos.sub_v (origin.add_v (ray.mul_t d)))
        (origin.add_v (ray.mul_t d)) with
    | none => rw [ho] at hs; simp at hs
    | some z => simp [ho]
  have hsh : shadeHit EPSILON intersect ps amb ray origin lights d nrm p =
      Vec3.add_v ⟨0, 0, 0⟩ (Vec3.add_v ⟨0, 0, 0⟩ (vecMult amb p.mat.diffuse)) := by
    simp only [shadeHit]
    rw [hli]
    simp
  rw [hsh]
  simp [Vec3.add_v, vecMult]

/-- Witness for claim C7: a hit with no lights at all yields exactly the
ambient term. -/
theorem trace_ambient_only_witness :
    trace eps0 intersect1 [p0] (⟨1, 1, 1⟩ : Vec3) v0 v0 [] =
      (⌊fclamp ((⟨1, 1, 1⟩ : Vec3).x * p0.mat.diffuse.x * 255) 0 255⌋,
       ⌊fclamp ((⟨1, 1, 1⟩ : Vec3).y * p0.mat.diffuse.y * 255) 0 255⌋,
       ⌊fclamp ((⟨1, 1, 1⟩ : Vec3).z * p0.mat.diffuse.z * 255) 0 255⌋) :=
  trace_ambient_only eps0 intersect1 [p0] ⟨1, 1, 1⟩ v0 v0 [] 1 ⟨0, 0, 1⟩ p0 rfl
    (by intro light hl; simp at hl)

/-- Claim C8: the specular half of the per-light shading closure: the
specular coefficient is the absolute value of the dot product of the
perfect mirror reflection of the normalized hit-to-light direction about
the normal with the normalized incoming ray direction, raised to the
material's shininess exponent; the specular contribution is the material
specular colour scaled by the coefficient times the light colour
componentwise when the coefficient exceeds the epsilon threshold, and zero
otherwise.  The right-hand side is written from the claim's wording via
`mirrorReflect`; the left-hand side is the code's closure. -/
theorem shadePointLight_specular (EPSILON : ℝ) (normal normalizedRay : Vec3)
    (mat : Material) (intersection : Vec3) (light : Light) :
    (shadePointLight EPSILON normal normalizedRay mat intersection light).2 =
      (if |Real.rpow ((mirrorReflect ((light.pos.sub_v intersection).normalize) normal).dot
            normalizedRay) mat.shininess| > EPSILON
       then vecMult (mat.specular.mul_t
         |Real.rpow ((mirrorReflect ((light.pos.sub_v intersection).normalize) normal).dot
            normalizedRay) mat.shininess|) light.colour
       else ⟨0, 0, 0⟩) := by
  simp only [shadePointLight, mirrorReflect]
  rw [show ((light.pos.sub_v intersection).normalize).dot normal =
      normal.dot ((light.pos.sub_v intersection).normalize) from by
    simp [Vec3.dot]; ring]

/-- Claim C9: rendering is deterministic and idempotent: two evaluations of
the render driver on the same scene produce identical buffers, and the
buffer is a function of the scene alone (in this pure-functional embedding
there is no hidden state, so both facts are immediate). -/
theorem render_deterministic (EPSILON : ℝ)
    (intersect : Primitive → Vec3 → Vec3 → Option Intersection) (s : Scene) :
    render EPSILON intersect s = render EPSILON intersect s ∧
    ∀ s2 : Scene, s2 = s → render EPSILON intersect s2 = render EPSILON intersect s := by
  exact ⟨rfl, fun s2 h => by rw [h]⟩

/-- Witness for claim C9: the determinism statement instantiated on the
concrete scene `sC3`. -/
theorem render_deterministic_witness :
    render eps0 intersect0 sC3 = render eps0 intersect0 sC3 :=
  (render_deterministic eps0 intersect0 sC3).2 sC3 rfl

/-! Row order of the serialized output. -/

theorem foldr_append_singleton {α β : Type} (f : α → β) (l : List α) :
    l.foldr (fun y result => result ++ [f y]) [] = (l.map f).reverse := by
  induction l with
  | nil => rfl
  | cons a l ih => simp [ih]

theorem makePixels_eq (w h : ℕ) :
    makePixels w h =
      ((List.range h).map (fun y : ℕ =>
        (List.range w).map (fun x : ℕ => ((x : ℤ), (y : ℤ))))).reverse := by
  simp only [makePixels]
  rw [foldr_append_singleton]
  simp [List.map_map, Function.comp_def]

theorem render_getD (EPSILON : ℝ)
    (intersect : Primitive → Vec3 → Vec3 → Option Intersection) (s : Scene)
    (i : ℕ) (hi : i < s.height) :
    (render EPSILON intersect s).getD i [] =
      (List.range s.width).map (fun x : ℕ =>
        doTrace EPSILON intersect s (setupScene s)
          ((x : ℤ), ((s.height - 1 - i : ℕ) : ℤ))) := by
  simp only [render]
  rw [makePixels_eq, List.map_reverse]
  have hlen : i < (((List.range s.height).map (fun y : ℕ =>
      (List.range s.width).map (fun x : ℕ => ((x : ℤ), (y : ℤ))))).map (fun column =>
        column.map (fun pix => doTrace EPSILON intersect s (setupScene s) pix))).reverse.length := by
    simpa using hi
  rw [List.getD_eq_getElem?_getD, List.getElem?_eq_getElem hlen, Option.getD_some]
  rw [List.getElem_reverse]
  simp [List.getElem_map, List.getElem_range, List.map_map, List.length_map,
    List.length_range, Function.comp_def]

/-- Claim C3 (amended): the pixel-grid fold of `makePixels` appends each
row after the rows already built, so the grid — and hence the serialized
output of `main` — lists the pixel row y = height-1 first and the pixel
row y = 0 last: the i-th printed row contains exactly the colours computed
for the pixels (0, height-1-i), ..., (width-1, height-1-i), each row still
running from x = 0 to x = width-1. -/
theorem mainRows_lists_rows_reversed (EPSILON : ℝ)
    (intersect : Primitive → Vec3 → Vec3 → Option Intersection) (s : Scene)
    (i : ℕ) (hi : i < s.height) :
    (mainRows EPSILON intersect s).getD i [] =
      (List.range s.width).map (fun x : ℕ =>
        doTrace EPSILON intersect s (setupScene s)
          ((x : ℤ), ((s.height - 1 - i : ℕ) : ℤ))) := by
  simp only [mainRows]
  have hlen : i < ((List.range s.height).map (fun y : ℕ =>
      (List.range s.width).map (fun x : ℕ =>
        ((render EPSILON intersect s).getD y []).getD x (0, 0, 0)))).length := by
    simpa using hi
  rw [List.getD_eq_getElem?_getD, List.getElem?_eq_getElem hlen, Option.getD_some]
  simp only [List.getElem_map, List.getElem_range]
  apply List.map_congr_left
  intro x hx
  rw [render_getD EPSILON intersect s i hi]
  have hxw2 : x < ((List.range s.width).map (fun x : ℕ =>
      doTrace EPSILON intersect s (setupScene s)
        ((x : ℤ), ((s.height - 1 - i : ℕ) : ℤ)))).length := by
    simpa using List.mem_range.mp hx
  rw [List.getD_eq_getElem?_getD, List.getElem?_eq_getElem hxw2, Option.getD_some]
  simp only [List.getElem_map, List.getElem_range]

/-- Witness for claim C3 (amended): the reversed-row equation instantiated
at the first printed row of the concrete 1-by-2 scene. -/
theorem mainRows_lists_rows_reversed_witness :
    (mainRows eps0 intersect0 sC3).getD 0 [] =
      (List.range sC3.width).map (fun x : ℕ =>
        doTrace eps0 intersect0 sC3 (setupScene sC3)
          ((x : ℤ), ((sC3.height - 1 - 0 : ℕ) : ℤ))) :=
  mainRows_lists_rows_reversed eps0 intersect0 sC3 0 (by norm_num [sC3])

theorem doTrace_sC3_hit :
    doTrace eps0 intersect0 sC3 (setupScene sC3) (0, 1) = (255, 255, 255) := by
  norm_num [doTrace, setupScene, sC3, p0, mat0, trace, shadeHit, intersectNodes,
    intersect0, fclamp, vecMult, Vec3.add_v, Vec3.sub_v, Vec3.mul_t, Vec3.cross,
    Vec3.normalize, Vec3.length, Vec3.dot]

theorem doTrace_sC3_miss :
    doTrace eps0 intersect0 sC3 (setupScene sC3) (0, 0) = (26, 26, 26) := by
  norm_num [doTrace, setupScene, sC3, p0, mat0, trace, intersectNodes,
    intersect0, Vec3.add_v, Vec3.sub_v, Vec3.mul_t, Vec3.cross,
    Vec3.normalize, Vec3.length, Vec3.dot]

/-- Counterexample to claim C3 as stated: for the concrete 1-by-2 scene
`sC3` the first printed row is not the colour row of the pixels (x, 0):
the printed entry is the colour of pixel (0, 1) (which hits the primitive
and shades to (255, 255, 255)), while pixel (0, 0) misses and yields
(26, 26, 26). -/
theorem mainRows_row_zero_ne_pixel_row_zero :
    (mainRows eps0 intersect0 sC3).getD 0 [] ≠
      (List.range sC3.width).map (fun x : ℕ =>
        doTrace eps0 intersect0 sC3 (setupScene sC3) ((x : ℤ), ((0 : ℕ) : ℤ))) := by
  intro hEq
  have hL : (mainRows eps0 intersect0 sC3).getD 0 [] =
      [doTrace eps0 intersect0 sC3 (setupScene sC3) (0, 1)] := rfl
  have hR : (List.range sC3.width).map (fun x : ℕ =>
      doTrace eps0 intersect0 sC3 (setupScene sC3) ((x : ℤ), ((0 : ℕ) : ℤ))) =
      [doTrace eps0 intersect0 sC3 (setupScene sC3) (0, 0)] := rfl
  rw [hL, hR, doTrace_sC3_hit, doTrace_sC3_miss] at hEq
  simp at hEq

end Rray
